import Mathlib

set_option maxRecDepth 200000

/-!
# Verification of `scripts/generate_app_icons.py`

Shallow embedding of the icon-generation pipeline: it renders iOS and macOS
app icons and launch screens from a single source image and builds
`Contents.json` manifests.

Modelling conventions:

* A PIL `Image` in RGBA mode is modelled as dimensions plus a pixel function.
* PIL's Lanczos resampling filter is an arbitrary fixed parameter of type
  `Resample`: the claims under verification depend on the produced
  dimensions, alpha masking and write structure, not on the filter's pixel
  arithmetic.  `Image.resize` always returns an image of exactly the
  requested dimensions, which `resizeImg` captures by construction.
* Python floats are modelled as rationals.  Every float computation this
  script performs (`size * scale`, `min(icon_size) * 0.2`, the aspect
  arithmetic of `Image.thumbnail`) stays so far from integer boundaries that
  binary-float rounding and exact rational arithmetic truncate identically,
  so the model is faithful on all inputs the script touches.
* `raise ValueError` sites are modelled with `Except` over `PipelineError`,
  using the error taxonomy names of the design document
  (`InsufficientResolutionError` for the 1024×1024 source check,
  `DimensionMismatchError` for the 512×512@2x check).
* File writes are modelled as an ordered list of `(path, data)` pairs;
  directory creation (`os.makedirs(..., exist_ok=True)`) is idempotent and
  unconditional and is not part of the write list.
-/

/-- An RGBA pixel; channel values lie in `0..255`. -/
structure RGBA where
  r : ℕ
  g : ℕ
  b : ℕ
  a : ℕ
  deriving DecidableEq, Repr

/-- A PIL image in RGBA mode: dimensions plus a pixel function. -/
structure Img where
  width : ℕ
  height : ℕ
  pix : ℕ → ℕ → RGBA

/-- A deterministic resampling filter (stands for `Image.LANCZOS`): given the
source image and the requested target dimensions, it yields the pixel at each
target coordinate. -/
abbrev Resample : Type := Img → ℕ → ℕ → ℕ → ℕ → RGBA

/-- `Image.resize(size, filter)`: returns an image of exactly the requested
dimensions, with pixels produced by the resampling filter. -/
def resizeImg (lanczos : Resample) (img : Img) (wh : ℕ × ℕ) : Img :=
  { width := wh.1, height := wh.2, pix := fun x y => lanczos img wh.1 wh.2 x y }

/-- Python `int(q)` for the nonnegative values this script computes:
truncation toward zero, i.e. the floor. -/
def pyInt (q : ℚ) : ℕ := (⌊q⌋).toNat

/-- One row of the static size table: logical size (a pair of floats, since
`83.5` is fractional), the list of scale factors, the idiom tag and the
optional platform tag (`size_info.get("platform")`). -/
structure SizeSpec where
  size : ℚ × ℚ
  scales : List ℕ
  idiom : String
  platform : Option String := none
  deriving DecidableEq, Repr

/-- `sizes["ios"]` from the script. -/
def sizes_ios : List SizeSpec :=
  [ { size := (20, 20), scales := [2, 3], idiom := "iphone" },
    { size := (29, 29), scales := [1, 2, 3], idiom := "iphone" },
    { size := (40, 40), scales := [2, 3], idiom := "iphone" },
    { size := (60, 60), scales := [2, 3], idiom := "iphone" },
    { size := (76, 76), scales := [1, 2], idiom := "ipad" },
    { size := (83.5, 83.5), scales := [2], idiom := "ipad" },
    { size := (1024, 1024), scales := [1], idiom := "ios-marketing" } ]

/-- `sizes["macos"]` from the script. -/
def sizes_macos : List SizeSpec :=
  [ { size := (16, 16), scales := [1, 2], idiom := "mac" },
    { size := (32, 32), scales := [1, 2], idiom := "mac" },
    { size := (128, 128), scales := [1, 2], idiom := "mac" },
    { size := (256, 256), scales := [1, 2], idiom := "mac" },
    { size := (512, 512), scales := [1, 2], idiom := "mac" } ]

/-- The output directory paths defined at the top of the script. -/
def output_dir_ios : String := "../ADHDCoach/Assets.xcassets/AppIconIOS.appiconset"

/-- macOS icon output directory. -/
def output_dir_macos : String := "../ADHDCoach/Assets.xcassets/AppIconMacOS.appiconset"

/-- Launch-screen output directory. -/
def launch_screen_dir : String := "../ADHDCoach/Assets.xcassets/LaunchScreen.imageset"

/-- `icon_size = (int(size[0] * scale), int(size[1] * scale))`. -/
def icon_size (size : ℚ × ℚ) (scale : ℕ) : ℕ × ℕ :=
  (pyInt (size.1 * scale), pyInt (size.2 * scale))

/-- `corner_radius = int(min(icon_size) * 0.2)  # 20% of the smallest
dimension`. -/
def corner_radius (isz : ℕ × ℕ) : ℕ :=
  pyInt ((min isz.1 isz.2 : ℚ) * (0.2 : ℚ))

/-- The discrete region filled by
`draw.rounded_rectangle([(0, 0), image.size], radius=r, fill=255)` on an
`L`-mode mask of size `w × h`.  PIL `ImageDraw` bounding boxes include both
endpoints, so the script's call draws over the box `(0, 0)`–`(w, h)` — one
pixel beyond the canvas — and the four corner arcs are centred at `(r, r)`,
`(w - r, r)`, `(r, h - r)` and `(w - r, h - r)`: the right and bottom arcs
sit one pixel further out than the canvas corners would suggest.  PIL fills
the vertical strip `r ≤ x ≤ w - r`, the horizontal strip `r ≤ y ≤ h - r`,
and the four corner discs; a pixel is opaque iff it lies in a strip or
within distance `r` of its corner's arc centre. -/
def inRoundedRect (w h r : ℕ) (x y : ℕ) : Bool :=
  let xi : ℤ := x
  let yi : ℤ := y
  let wi : ℤ := (w : ℤ)
  let hi : ℤ := (h : ℤ)
  let ri : ℤ := r
  let ok (cx cy : ℤ) : Bool := decide ((xi - cx) ^ 2 + (yi - cy) ^ 2 ≤ ri ^ 2)
  (decide (ri ≤ xi) || decide (ri ≤ yi) || ok ri ri) &&
  (decide (xi ≤ wi - ri) || decide (ri ≤ yi) || ok (wi - ri) ri) &&
  (decide (ri ≤ xi) || decide (yi ≤ hi - ri) || ok ri (hi - ri)) &&
  (decide (xi ≤ wi - ri) || decide (yi ≤ hi - ri) || ok (wi - ri) (hi - ri))

/-- `add_rounded_corners(image, corner_radius)`: builds an `L`-mode mask the
size of the image with a filled rounded rectangle, and substitutes the
image's alpha channel with the mask via `putalpha`.  The intermediate
`ImageOps.fit(image, mask.size, centering=(0.5, 0.5))` is the identity here
because `mask.size == image.size` (PIL's `resize` to the current size
returns a plain copy). -/
def add_rounded_corners (image : Img) (radius : ℕ) : Img :=
  { width := image.width, height := image.height,
    pix := fun x y =>
      let p := image.pix x y
      { p with a := if inRoundedRect image.width image.height radius x y then 255 else 0 } }

/-- Structural-recursion model of Python's `str.replace(pat, rep)` on
character lists (replaces every non-overlapping occurrence, scanning left to
right); the fuel argument is the length of the string, which suffices since
every step consumes at least one character when `pat` is nonempty. -/
def replaceAux : ℕ → List Char → List Char → List Char → List Char
  | 0, _, _, _ => []
  | _ + 1, [], _, _ => []
  | fuel + 1, c :: rest, pat, rep =>
    if pat.isPrefixOf (c :: rest) then
      rep ++ replaceAux fuel (List.drop pat.length (c :: rest)) pat rep
    else
      c :: replaceAux fuel rest pat rep

/-- Python `s.replace(pat, rep)` for nonempty `pat`. -/
def pyReplace (s pat rep : String) : String :=
  String.mk (replaceAux s.data.length s.data pat.data rep.data)

/-- `icon_filename = f"{int(size[0])}x{int(size[1])}@{scale}x.png".replace(".0", "")`. -/
def icon_filename (size : ℚ × ℚ) (scale : ℕ) : String :=
  pyReplace (toString (pyInt size.1) ++ "x" ++ toString (pyInt size.2) ++ "@" ++
    toString scale ++ "x.png") ".0" ""

/-- One record of a manifest's `images` array.  The `size` field is absent
(`none`) in the hand-written launch-screen records and present for icons;
the `platform` key is only inserted when a platform tag is present. -/
structure ImageEntry where
  idiom : String
  size : Option String
  scale : String
  filename : String
  platform : Option String
  deriving DecidableEq, Repr

/-- The manifest record built by `save_icon`. -/
def image_entry (size : ℚ × ℚ) (scale : ℕ) (idiom : String)
    (platform : Option String) : ImageEntry :=
  { idiom := idiom,
    size := some (toString (pyInt size.1) ++ "x" ++ toString (pyInt size.2)),
    scale := toString scale ++ "x",
    filename := icon_filename size scale,
    platform := platform }

/-- The fatal error taxonomy of the design document, standing for the
script's `raise ValueError(...)` sites. -/
inductive PipelineError where
  | InsufficientResolutionError
  | DimensionMismatchError
  deriving DecidableEq, Repr

/-- What one `save_icon` call produces: the written file's name and pixel
data, and the manifest record appended to `contents["images"]`. -/
structure IconResult where
  filename : String
  image : Img
  entry : ImageEntry

/-- `save_icon(size, scale, output_dir, idiom, contents, platform)`: resize,
apply rounded corners when the idiom is `"mac"`, compute the filename, check
the 512×512@2x invariant (raising `ValueError` — `DimensionMismatchError` —
if violated), write the file and append the manifest record. -/
def save_icon (lanczos : Resample) (source_image : Img) (size : ℚ × ℚ)
    (scale : ℕ) (idiom : String) (platform : Option String) :
    Except PipelineError IconResult :=
  let isz := icon_size size scale
  let icon_image := resizeImg lanczos source_image isz
  let icon_image :=
    if idiom = "mac" then add_rounded_corners icon_image (corner_radius isz)
    else icon_image
  if size = ((512 : ℚ), (512 : ℚ)) ∧ scale = 2 ∧ isz ≠ (1024, 1024) then
    .error .DimensionMismatchError
  else
    .ok { filename := icon_filename size scale, image := icon_image,
          entry := image_entry size scale idiom platform }

/-- A `Contents.json` manifest: an ordered list of image records plus the
fixed `info` metadata (`{"version": 1, "author": "xcode"}`). -/
structure Contents where
  images : List ImageEntry
  version : ℕ
  author : String

/-- The data written to one output file. -/
inductive FileData where
  | png (image : Img)
  | manifest (contents : Contents)

/-- `generate_contents_json(output_dir, contents)`: serializes the manifest
into `output_dir/Contents.json`. -/
def generate_contents_json (output_dir : String) (contents : Contents) :
    String × FileData :=
  (output_dir ++ "/Contents.json", FileData.manifest contents)

/-- One platform's rendering loop: iterate the size table, calling
`save_icon` for each `(size_info, scale)` pair; accumulates the ordered list
of file writes and the manifest (initialised to
`{"images": [], "info": {"version": 1, "author": "xcode"}}`). -/
def process_sizes (lanczos : Resample) (source_image : Img)
    (output_dir : String) (table : List SizeSpec) :
    Except PipelineError (List (String × FileData) × Contents) :=
  table.foldlM
    (fun acc info => info.scales.foldlM
      (fun acc scale => do
        let r ← save_icon lanczos source_image info.size scale info.idiom info.platform
        pure (acc.1 ++ [(output_dir ++ "/" ++ r.filename, FileData.png r.image)],
              { acc.2 with images := acc.2.images ++ [r.entry] }))
      acc)
    ([], { images := [], version := 1, author := "xcode" })

/-- `round_aspect` from PIL's `Image.thumbnail`: pick the floor
(`math.floor`) or the ceiling (`math.ceil`) of the exact aspect-preserving
value, whichever makes the resulting aspect ratio closer according to `key`
(Python's two-argument `min` with a key returns the first argument on ties),
and never go below 1. -/
def round_aspect (number : ℚ) (key : ℕ → ℚ) : ℕ :=
  max (if key (pyInt number) ≤ key ((⌈number⌉).toNat) then pyInt number
       else (⌈number⌉).toNat) 1

/-- The dimensions produced by PIL's `Image.thumbnail((bw, bh), LANCZOS)` on
a `sw × sh` image: unchanged when it already fits the box, otherwise scaled
proportionally (up to one pixel of rounding chosen by `round_aspect`) so the
result fits within the box, keeping the box dimension of the axis whose
relative size is tighter (`aspect = sw / sh`; the first branch is Python's
`x / y >= aspect`). -/
def thumbnail_size (sw sh bw bh : ℕ) : ℕ × ℕ :=
  if sw ≤ bw ∧ sh ≤ bh then (sw, sh)
  else if (sw : ℚ) / (sh : ℚ) ≤ (bw : ℚ) / (bh : ℚ) then
    (round_aspect ((bh : ℚ) * ((sw : ℚ) / (sh : ℚ)))
      (fun n => |(sw : ℚ) / (sh : ℚ) - (n : ℚ) / (bh : ℚ)|), bh)
  else
    (bw, round_aspect ((bw : ℚ) / ((sw : ℚ) / (sh : ℚ)))
      (fun n => if n = 0 then 0 else |(sw : ℚ) / (sh : ℚ) - (bw : ℚ) / (n : ℚ)|))

/-- Blending one channel of PIL's `paste(im, box, mask)`: the mask value `m`
interpolates between the background and the pasted channel. -/
def blend_channel (bg fg m : ℕ) : ℕ := (bg * (255 - m) + fg * m) / 255

/-- Blending one pixel over the background during `paste`, using the pasted
image's own alpha band as the mask (the third `paste` argument). -/
def blend_pixel (bg fg : RGBA) : RGBA :=
  { r := blend_channel bg.r fg.r fg.a, g := blend_channel bg.g fg.g fg.a,
    b := blend_channel bg.b fg.b fg.a, a := blend_channel bg.a fg.a fg.a }

/-- `screen_sizes = [(2732, 2732), (5464, 5464), (8196, 8196)]`. -/
def screen_sizes : List (ℕ × ℕ) := [(2732, 2732), (5464, 5464), (8196, 8196)]

/-- `scale_labels = ["1x", "2x", "3x"]`. -/
def scale_labels : List String := ["1x", "2x", "3x"]

/-- One launch-screen canvas: an opaque black `screen`-sized background, the
source image thumbnailed into half the canvas (`screen // 2` per axis),
pasted centred using the thumbnail's own alpha channel as the paste mask. -/
def launch_screen_image (lanczos : Resample) (source_image : Img)
    (screen : ℕ × ℕ) : Img :=
  let tsz := thumbnail_size source_image.width source_image.height
    (screen.1 / 2) (screen.2 / 2)
  let resized := resizeImg lanczos source_image tsz
  let pos : ℕ × ℕ := ((screen.1 - resized.width) / 2, (screen.2 - resized.height) / 2)
  { width := screen.1, height := screen.2,
    pix := fun x y =>
      if pos.1 ≤ x ∧ x < pos.1 + resized.width ∧ pos.2 ≤ y ∧ y < pos.2 + resized.height then
        blend_pixel { r := 0, g := 0, b := 0, a := 255 }
          (resized.pix (x - pos.1) (y - pos.2))
      else { r := 0, g := 0, b := 0, a := 255 } }

/-- `create_launch_screen(output_dir, source_image)`: writes the three
composed canvases under `LaunchScreen@{1x,2x,3x}.png`. -/
def create_launch_screen (lanczos : Resample) (output_dir : String)
    (source_image : Img) : List (String × FileData) :=
  (screen_sizes.zip scale_labels).map fun p =>
    (output_dir ++ "/LaunchScreen@" ++ p.2 ++ ".png",
     FileData.png (launch_screen_image lanczos source_image p.1))

/-- The hand-written launch-screen manifest (three fixed `universal`
records). -/
def launch_screen_contents : Contents :=
  { images :=
      [ { idiom := "universal", size := none, scale := "1x",
          filename := "LaunchScreen@1x.png", platform := none },
        { idiom := "universal", size := none, scale := "2x",
          filename := "LaunchScreen@2x.png", platform := none },
        { idiom := "universal", size := none, scale := "3x",
          filename := "LaunchScreen@3x.png", platform := none } ],
    version := 1, author := "xcode" }

/-- The whole script after the source image is loaded and converted to RGBA:
validate the source resolution (raising `InsufficientResolutionError` before
anything is rendered or written), render the iOS icons, serialize the iOS
manifest, render the macOS icons (their `generate_contents_json` call is
commented out in the script, so no macOS manifest write appears), compose
the launch screens and serialize the launch-screen manifest.  The returned
list is the ordered sequence of file writes of a successful run. -/
def run_script (lanczos : Resample) (source_image : Img) :
    Except PipelineError (List (String × FileData)) :=
  if source_image.width < 1024 ∨ source_image.height < 1024 then
    .error .InsufficientResolutionError
  else do
    let ios ← process_sizes lanczos source_image output_dir_ios sizes_ios
    let mac ← process_sizes lanczos source_image output_dir_macos sizes_macos
    pure (ios.1 ++ [generate_contents_json output_dir_ios ios.2] ++
      mac.1 ++
      create_launch_screen lanczos launch_screen_dir source_image ++
      [generate_contents_json launch_screen_dir launch_screen_contents])

/-- The write list of a run; a run that aborted with an error has written
nothing (the only error reachable from the script's tables is the source
validation, which precedes every render and write). -/
def writes_of : Except PipelineError (List (String × FileData)) → List (String × FileData)
  | .ok ws => ws
  | .error _ => []

/-- A filesystem: a map from paths to file data. -/
def FS : Type := String → Option FileData

/-- Writing one file (an overwrite if the path exists). -/
def write_file (fs : FS) (path : String) (data : FileData) : FS :=
  fun q => if q = path then some data else fs q

/-- Applying an ordered list of writes to a filesystem. -/
def apply_writes (ws : List (String × FileData)) (fs : FS) : FS :=
  ws.foldl (fun fs w => write_file fs w.1 w.2) fs

/-- Projection: the rendered image of a `save_icon` call, when it succeeded. -/
def image_of : Except PipelineError IconResult → Option Img
  | .ok r => some r.image
  | .error _ => none

/-- Projection: the filename of a `save_icon` call, when it succeeded. -/
def filename_of : Except PipelineError IconResult → Option String
  | .ok r => some r.filename
  | .error _ => none

/-- Projection: the alpha channel value at a pixel of the rendered icon. -/
def alpha_at (res : Except PipelineError IconResult) (x y : ℕ) : Option ℕ :=
  (image_of res).map fun i => (i.pix x y).a

/-- Projection: the manifest record list accumulated by a platform loop. -/
def images_of : Except PipelineError (List (String × FileData) × Contents) →
    Option (List ImageEntry)
  | .ok r => some r.2.images
  | .error _ => none

/-- A concrete pixel used by the test source image. -/
def const_pixel : RGBA := { r := 10, g := 20, b := 30, a := 40 }

/-- A concrete valid 1024×1024 source image used for closed witnesses. -/
def test_source : Img := { width := 1024, height := 1024, pix := fun _ _ => const_pixel }

/-- A concrete undersized source image used for the validation witness. -/
def test_small : Img := { width := 512, height := 512, pix := fun _ _ => const_pixel }

/-- A concrete resampling filter used for closed witnesses. -/
def test_lanczos : Resample := fun _ _ _ _ _ => const_pixel

/-- Spec-side definition, from the claim's words: arithmetic rounding of a
nonnegative value to the nearest integer. -/
def spec_round (q : ℚ) : ℕ := (⌊q + 1 / 2⌋).toNat

/-- The file paths a platform's icon loop writes, in render order. -/
def icon_paths (output_dir : String) (table : List SizeSpec) : List String :=
  table.flatMap fun info => info.scales.map fun scale =>
    output_dir ++ "/" ++ icon_filename info.size scale

/-- All paths a successful run writes, in write order. -/
def script_paths : List String :=
  icon_paths output_dir_ios sizes_ios ++ [output_dir_ios ++ "/Contents.json"] ++
  icon_paths output_dir_macos sizes_macos ++
  (screen_sizes.zip scale_labels).map
    (fun p => launch_screen_dir ++ "/LaunchScreen@" ++ p.2 ++ ".png") ++
  [launch_screen_dir ++ "/Contents.json"]

/-- The last write to a given path in a write list, if any. -/
def last_write (ws : List (String × FileData)) (q : String) : Option FileData :=
  ws.foldl (fun acc w => if q = w.1 then some w.2 else acc) none

/-- C1: for every SizeSpec in the static size table (iOS and macOS) and every
scale factor listed for it, the rendered icon's pixel dimensions are exactly
`(round(logical_width * scale), round(logical_height * scale))` with
arithmetic rounding — the script's `int(...)` truncation coincides with
rounding because every tabulated product is an exact integer. -/
theorem icon_dimensions_are_rounded_products (info : SizeSpec)
    (hinfo : info ∈ sizes_ios ++ sizes_macos) (scale : ℕ)
    (hscale : scale ∈ info.scales) (lanczos : Resample) (source_image : Img) :
    (image_of (save_icon lanczos source_image info.size scale info.idiom info.platform)).map
      (fun i => (i.width, i.height)) =
    some (spec_round (info.size.1 * scale), spec_round (info.size.2 * scale)) := by
  fin_cases hinfo <;> fin_cases hscale <;> with_unfolding_all rfl

/-- Witness for C1 at the fractional 83.5×83.5 @2x iPad entry. -/
theorem icon_dimensions_are_rounded_products_witness :
    (image_of (save_icon test_lanczos test_source (83.5, 83.5) 2 "ipad" none)).map
      (fun i => (i.width, i.height)) =
    some (spec_round (83.5 * 2), spec_round (83.5 * 2)) :=
  icon_dimensions_are_rounded_products
    { size := (83.5, 83.5), scales := [2], idiom := "ipad", platform := none }
    (of_decide_eq_true (by with_unfolding_all rfl)) 2 (by decide)
    test_lanczos test_source

/-- C2 counterexample: the filename of the 83.5×83.5 @2x icon is
`"83x83@2x.png"` — the script truncates the logical size with `int(...)`
before formatting, so the fractional size does not keep its decimal part and
the filename does not contain `"83.5x83.5"`. -/
theorem fractional_size_filename_counterexample :
    filename_of (save_icon test_lanczos test_source (83.5, 83.5) 2 "ipad" none) =
      some "83x83@2x.png" ∧
    ¬ ("83.5x83.5".data <:+: "83x83@2x.png".data) :=
  ⟨by with_unfolding_all rfl, by decide⟩

/-- C2 (amended): for every SizeSpec and scale in the tables, the output
filename is `"{int(w)}x{int(h)}@{scale}x.png"` where `int` truncates the
float logical size (so 83.5 becomes 83); the `.replace(".0", "")` call never
changes these names because the truncated format never produces `".0"`. -/
theorem icon_filename_truncates_sizes (info : SizeSpec)
    (hinfo : info ∈ sizes_ios ++ sizes_macos) (scale : ℕ)
    (hscale : scale ∈ info.scales) (lanczos : Resample) (source_image : Img) :
    filename_of (save_icon lanczos source_image info.size scale info.idiom info.platform) =
      some (toString (pyInt info.size.1) ++ "x" ++ toString (pyInt info.size.2) ++ "@" ++
        toString scale ++ "x.png") := by
  fin_cases hinfo <;> fin_cases hscale <;> with_unfolding_all rfl

/-- Witness for the amended C2 at the fractional 83.5×83.5 @2x iPad entry. -/
theorem icon_filename_truncates_sizes_witness :
    filename_of (save_icon test_lanczos test_source (83.5, 83.5) 2 "ipad" none) =
      some (toString (pyInt (83.5 : ℚ)) ++ "x" ++ toString (pyInt (83.5 : ℚ)) ++ "@" ++
        toString (2 : ℕ) ++ "x.png") :=
  icon_filename_truncates_sizes
    { size := (83.5, 83.5), scales := [2], idiom := "ipad", platform := none }
    (of_decide_eq_true (by with_unfolding_all rfl)) 2 (by decide)
    test_lanczos test_source

/-- C5: the 512×512 logical size at scale 2 always renders at exactly
1024×1024 pixels, and the `DimensionMismatchError` branch guarding that
combination is unreachable, for any idiom, platform tag, source image and
resampling filter. -/
theorem icon_512_at_2x_is_1024 (lanczos : Resample) (source_image : Img)
    (idiom : String) (platform : Option String) :
    (image_of (save_icon lanczos source_image (512, 512) 2 idiom platform)).map
      (fun i => (i.width, i.height)) = some (1024, 1024) ∧
    save_icon lanczos source_image (512, 512) 2 idiom platform ≠
      Except.error PipelineError.DimensionMismatchError := by
  have h : ¬(((512 : ℚ), (512 : ℚ)) = ((512 : ℚ), (512 : ℚ)) ∧ (2 : ℕ) = 2 ∧
      icon_size (512, 512) 2 ≠ (1024, 1024)) := by
    with_unfolding_all decide
  unfold save_icon
  rw [if_neg h]
  constructor
  · by_cases hm : idiom = "mac" <;> simp [hm, image_of, add_rounded_corners, resizeImg] <;>
      with_unfolding_all rfl
  · intro hc
    exact Except.noConfusion hc

/-- C6: a source image below 1024 pixels in either dimension makes the run
abort with `InsufficientResolutionError` before anything is rendered, and the
run writes no icon, launch-screen or manifest file (the write list is empty;
directory creation, which precedes the check in the script, is idempotent and
modelled outside the write list). -/
theorem undersized_source_aborts_without_writes (lanczos : Resample)
    (source_image : Img)
    (h : source_image.width < 1024 ∨ source_image.height < 1024) :
    run_script lanczos source_image =
      Except.error PipelineError.InsufficientResolutionError ∧
    writes_of (run_script lanczos source_image) = [] := by
  unfold run_script
  rw [if_pos h]
  exact ⟨rfl, rfl⟩

/-- Witness for C6 at a concrete 512×512 source image. -/
theorem undersized_source_aborts_without_writes_witness :
    run_script test_lanczos test_small =
      Except.error PipelineError.InsufficientResolutionError ∧
    writes_of (run_script test_lanczos test_small) = [] :=
  undersized_source_aborts_without_writes test_lanczos test_small
    (Or.inl (by decide))

/-- C8: for each platform loop the accumulated manifest holds exactly one
record per (SizeSpec, scale) pair, in render order (the flattened table
order): 13 records for the iOS table and 10 for the macOS table. -/
theorem manifest_records_match_table (lanczos : Resample) (source_image : Img) :
    images_of (process_sizes lanczos source_image output_dir_ios sizes_ios) =
      some (sizes_ios.flatMap fun info => info.scales.map fun scale =>
        image_entry info.size scale info.idiom info.platform) ∧
    images_of (process_sizes lanczos source_image output_dir_macos sizes_macos) =
      some (sizes_macos.flatMap fun info => info.scales.map fun scale =>
        image_entry info.size scale info.idiom info.platform) ∧
    (sizes_ios.flatMap fun info => info.scales.map fun scale =>
        image_entry info.size scale info.idiom info.platform).length =
      (sizes_ios.flatMap fun info => info.scales).length ∧
    (sizes_ios.flatMap fun info => info.scales).length = 13 ∧
    (sizes_macos.flatMap fun info => info.scales.map fun scale =>
        image_entry info.size scale info.idiom info.platform).length =
      (sizes_macos.flatMap fun info => info.scales).length ∧
    (sizes_macos.flatMap fun info => info.scales).length = 10 := by
  refine ⟨?_, ?_, ?_, ?_, ?_, ?_⟩ <;> with_unfolding_all rfl

/-- C10: every icon whose idiom is not `"mac"` — which covers every iOS
table entry (idioms `iphone`, `ipad`, `ios-marketing`) — gets no
rounded-corner treatment: the written image is exactly the Lanczos resize of
the source to the target dimensions, its alpha coming from the resize alone. -/
theorem non_mac_icons_are_plain_resizes :
    (∀ info ∈ sizes_ios, info.idiom ≠ "mac") ∧
    ∀ (lanczos : Resample) (source_image : Img) (size : ℚ × ℚ) (scale : ℕ)
      (idiom : String) (platform : Option String), idiom ≠ "mac" →
      image_of (save_icon lanczos source_image size scale idiom platform) =
        some (resizeImg lanczos source_image (icon_size size scale)) := by
  constructor
  · with_unfolding_all decide
  · intro lanczos source_image size scale idiom platform hm
    unfold save_icon
    by_cases hg : size = ((512 : ℚ), (512 : ℚ)) ∧ scale = 2 ∧
        icon_size size scale ≠ (1024, 1024)
    · exfalso
      obtain ⟨h1, h2, h3⟩ := hg
      subst h1 h2
      exact h3 (by with_unfolding_all rfl)
    · rw [if_neg hg, if_neg hm]
      rfl

set_option maxHeartbeats 4000000 in
/-- On a valid source, the paths a run writes are exactly `script_paths`:
the iOS icons, the iOS manifest, the macOS icons (without a macOS manifest),
the launch screens and the launch-screen manifest, in that order. -/
lemma run_script_paths (lanczos : Resample) (source_image : Img)
    (h : ¬(source_image.width < 1024 ∨ source_image.height < 1024)) :
    (writes_of (run_script lanczos source_image)).map Prod.fst = script_paths := by
  unfold run_script
  rw [if_neg h]
  with_unfolding_all rfl

/-- C3 counterexample: on a valid 1024×1024 source the macOS icon output
directory receives rendered icons (its 16×16 @1x icon is written) but no
`Contents.json` manifest is ever written into it — the script's
`generate_contents_json(output_dir_macos, contents_macos)` call is commented
out. -/
theorem macos_manifest_never_written :
    ((writes_of (run_script test_lanczos test_source)).map Prod.fst).contains
      (output_dir_macos ++ "/" ++ icon_filename (16, 16) 1) = true ∧
    ((writes_of (run_script test_lanczos test_source)).map Prod.fst).contains
      (output_dir_macos ++ "/Contents.json") = false := by
  constructor <;> with_unfolding_all rfl

/-- C3 (amended): after a successful run, the iOS icon directory and the
launch-screen directory each hold exactly one serialized manifest of schema
`Contents`; the macOS icon directory receives rendered icons but no
manifest, because its serialization call is disabled in the script. -/
theorem manifests_per_output_directory (lanczos : Resample) (source_image : Img)
    (h : ¬(source_image.width < 1024 ∨ source_image.height < 1024)) :
    ((writes_of (run_script lanczos source_image)).map Prod.fst).count
      (output_dir_ios ++ "/Contents.json") = 1 ∧
    ((writes_of (run_script lanczos source_image)).map Prod.fst).count
      (launch_screen_dir ++ "/Contents.json") = 1 ∧
    ((writes_of (run_script lanczos source_image)).map Prod.fst).count
      (output_dir_macos ++ "/Contents.json") = 0 ∧
    ((writes_of (run_script lanczos source_image)).map Prod.fst).contains
      (output_dir_macos ++ "/" ++ icon_filename (16, 16) 1) = true := by
  rw [run_script_paths lanczos source_image h]
  refine ⟨?_, ?_, ?_, ?_⟩ <;> with_unfolding_all rfl

/-- Witness for the amended C3 at a concrete 1024×1024 source. -/
theorem manifests_per_output_directory_witness :
    ((writes_of (run_script test_lanczos test_source)).map Prod.fst).count
      (output_dir_ios ++ "/Contents.json") = 1 ∧
    ((writes_of (run_script test_lanczos test_source)).map Prod.fst).count
      (launch_screen_dir ++ "/Contents.json") = 1 ∧
    ((writes_of (run_script test_lanczos test_source)).map Prod.fst).count
      (output_dir_macos ++ "/Contents.json") = 0 ∧
    ((writes_of (run_script test_lanczos test_source)).map Prod.fst).contains
      (output_dir_macos ++ "/" ++ icon_filename (16, 16) 1) = true :=
  manifests_per_output_directory test_lanczos test_source (by decide)

/-- C4 counterexample: for the 16×16 @1x macOS icon the script's corner
radius is `int(16 * 0.2) = 3`, which is not 20% of the shorter target
dimension (16/5 = 3.2): the rounded rectangle is drawn with the truncated
radius, not with radius `0.2 * min(width, height)`.  Moreover the claim's
"fully transparent at the extreme corner pixels" fails: the rounded
rectangle is drawn over PIL's inclusive box `(0, 0)`–`(16, 16)`, so the
bottom-right arc is centred at `(13, 13)` and the extreme corner pixel
`(15, 15)` lies within it (distance² 8 ≤ 9) — its alpha is 255, not 0. -/
theorem mac_corner_radius_counterexample :
    corner_radius (icon_size (16, 16) 1) = 3 ∧
    ((corner_radius (icon_size (16, 16) 1) : ℚ)) ≠ (0.2 : ℚ) * 16 ∧
    alpha_at (save_icon test_lanczos test_source (16, 16) 1 "mac" none) 15 15 =
      some 255 :=
  ⟨by with_unfolding_all rfl, by with_unfolding_all decide, by with_unfolding_all rfl⟩

/-- C4 (amended): for every macOS table entry (idiom `"mac"`), the written
image's alpha channel is fully replaced — regardless of the source image's
alpha — by the single-channel rounded-rectangle mask whose radius is
`int(0.2 * min(width, height))` (the 20% value truncated to an integer) and
which is drawn over PIL's inclusive box `(0, 0)`–`(w, h)`, one pixel beyond
the canvas: every pixel's alpha is 255 inside the drawn region and 0 outside
it.  In particular the centre pixel is fully opaque and the top-left,
top-right and bottom-left extreme corner pixels are fully transparent, but
the bottom-right corner pixel — whose arc is centred one pixel further out —
is transparent for every mac icon except the 16×16 @1x one (radius 3), where
it stays opaque. -/
theorem mac_icons_rounded_mask (info : SizeSpec) (hinfo : info ∈ sizes_macos)
    (scale : ℕ) (hscale : scale ∈ info.scales) (lanczos : Resample)
    (source_image : Img) (isz : ℕ × ℕ) (hisz : isz = icon_size info.size scale) :
    (∀ x y, alpha_at (save_icon lanczos source_image info.size scale info.idiom info.platform) x y =
        some (if inRoundedRect isz.1 isz.2 (corner_radius isz) x y then 255 else 0)) ∧
    alpha_at (save_icon lanczos source_image info.size scale info.idiom info.platform)
      (isz.1 / 2) (isz.2 / 2) = some 255 ∧
    alpha_at (save_icon lanczos source_image info.size scale info.idiom info.platform)
      0 0 = some 0 ∧
    alpha_at (save_icon lanczos source_image info.size scale info.idiom info.platform)
      (isz.1 - 1) 0 = some 0 ∧
    alpha_at (save_icon lanczos source_image info.size scale info.idiom info.platform)
      0 (isz.2 - 1) = some 0 ∧
    alpha_at (save_icon lanczos source_image info.size scale info.idiom info.platform)
      (isz.1 - 1) (isz.2 - 1) = some (if isz = (16, 16) then 255 else 0) := by
  subst hisz
  fin_cases hinfo <;> fin_cases hscale <;>
    exact ⟨fun x y => by with_unfolding_all rfl, by with_unfolding_all rfl,
      by with_unfolding_all rfl, by with_unfolding_all rfl,
      by with_unfolding_all rfl, by with_unfolding_all rfl⟩

/-- Witness for the amended C4 at the 16×16 @1x macOS entry (the exceptional
case whose bottom-right corner pixel stays opaque). -/
theorem mac_icons_rounded_mask_witness :
    (∀ x y, alpha_at (save_icon test_lanczos test_source (16, 16) 1 "mac" none) x y =
        some (if inRoundedRect 16 16 (corner_radius (16, 16)) x y then 255 else 0)) ∧
    alpha_at (save_icon test_lanczos test_source (16, 16) 1 "mac" none) 8 8 = some 255 ∧
    alpha_at (save_icon test_lanczos test_source (16, 16) 1 "mac" none) 0 0 = some 0 ∧
    alpha_at (save_icon test_lanczos test_source (16, 16) 1 "mac" none) 15 0 = some 0 ∧
    alpha_at (save_icon test_lanczos test_source (16, 16) 1 "mac" none) 0 15 = some 0 ∧
    alpha_at (save_icon test_lanczos test_source (16, 16) 1 "mac" none) 15 15 =
      some (if ((16, 16) : ℕ × ℕ) = (16, 16) then 255 else 0) :=
  mac_icons_rounded_mask
    { size := (16, 16), scales := [1, 2], idiom := "mac", platform := none }
    (of_decide_eq_true (by with_unfolding_all rfl)) 1 (by decide)
    test_lanczos test_source (16, 16) (by with_unfolding_all rfl)

/-- Folding the last-write scan from any accumulator: the scan result is the
last write when one exists, else the accumulator. -/
lemma foldl_write_or (q : String) (ws : List (String × FileData)) (acc : Option FileData) :
    ws.foldl (fun a w => if q = w.1 then some w.2 else a) acc =
      (last_write ws q).or acc := by
  induction ws generalizing acc with
  | nil => rfl
  | cons w ws ih =>
    show ws.foldl _ (if q = w.1 then some w.2 else acc) = _
    rw [ih]
    have hr : last_write (w :: ws) q =
        (last_write ws q).or (if q = w.1 then some w.2 else none) := by
      show ws.foldl _ (if q = w.1 then some w.2 else none) = _
      rw [ih]
    rw [hr]
    cases last_write ws q with
    | some v => rfl
    | none =>
      by_cases hq : q = w.1 <;> simp [hq]

/-- The filesystem after a write list, pointwise: a path holds its last write
when the list touches it, and its previous content otherwise. -/
lemma apply_writes_at (ws : List (String × FileData)) (fs : FS) (q : String) :
    apply_writes ws fs q = (last_write ws q).or (fs q) := by
  induction ws generalizing fs with
  | nil => rfl
  | cons w ws ih =>
    show apply_writes ws (write_file fs w.1 w.2) q = _
    rw [ih]
    have hr : last_write (w :: ws) q =
        (last_write ws q).or (if q = w.1 then some w.2 else none) := by
      show ws.foldl _ (if q = w.1 then some w.2 else none) = _
      exact foldl_write_or q ws _
    rw [hr]
    show (last_write ws q).or (if q = w.1 then some w.2 else fs q) = _
    cases last_write ws q with
    | some v => rfl
    | none =>
      by_cases hq : q = w.1 <;> simp [hq]

/-- Applying the same write list twice leaves the filesystem exactly as
applying it once. -/
lemma apply_writes_idempotent (ws : List (String × FileData)) (fs : FS) :
    apply_writes ws (apply_writes ws fs) = apply_writes ws fs := by
  funext q
  rw [apply_writes_at, apply_writes_at]
  cases last_write ws q <;> rfl

/-- C9: the pipeline is deterministic — in this embedding a run's write list
is a pure function of the source image and the (deterministic) resampling
filter — and re-running it is idempotent with respect to output contents:
replaying the same run's writes over the filesystem it already produced
changes nothing, because every run writes the same data to the same paths
and each path keeps its last write. -/
theorem rerun_is_idempotent (lanczos : Resample) (source_image : Img) (fs : FS) :
    apply_writes (writes_of (run_script lanczos source_image))
      (apply_writes (writes_of (run_script lanczos source_image)) fs) =
    apply_writes (writes_of (run_script lanczos source_image)) fs :=
  apply_writes_idempotent _ _

/-- Witness for C10 at the 20×20 @2x iPhone entry. -/
theorem non_mac_icons_are_plain_resizes_witness :
    image_of (save_icon test_lanczos test_source (20, 20) 2 "iphone" none) =
      some (resizeImg test_lanczos test_source (icon_size (20, 20) 2)) :=
  non_mac_icons_are_plain_resizes.2 test_lanczos test_source (20, 20) 2
    "iphone" none (by decide)

/-- `int(floor(q))` is at most `n` whenever `q ≤ n`. -/
lemma pyInt_le {q : ℚ} {n : ℕ} (h : q ≤ n) : pyInt q ≤ n := by
  unfold pyInt
  rw [Int.toNat_le]
  calc ⌊q⌋ ≤ ⌊(n : ℚ)⌋ := Int.floor_le_floor h
    _ = n := Int.floor_natCast n

/-- The ceiling, taken to `ℕ`, is at most `n` whenever `q ≤ n`. -/
lemma ceil_toNat_le {q : ℚ} {n : ℕ} (h : q ≤ n) : (⌈q⌉).toNat ≤ n := by
  rw [Int.toNat_le]
  exact Int.ceil_le.mpr (by exact_mod_cast h)

/-- `round_aspect` never exceeds an integer bound that dominates its input
(whatever the key): both rounding candidates fit under the bound. -/
lemma round_aspect_le {number : ℚ} {key : ℕ → ℚ} {n : ℕ}
    (hle : number ≤ n) (h1 : 1 ≤ n) : round_aspect number key ≤ n := by
  unfold round_aspect
  apply max_le _ h1
  split
  · exact pyInt_le hle
  · exact ceil_toNat_le hle

/-- When the input is at least 1 the clamp is inactive, so `round_aspect`
returns either the floor or the ceiling of its input. -/
lemma round_aspect_cases {number : ℚ} {key : ℕ → ℚ} (h : (1 : ℚ) ≤ number) :
    (round_aspect number key : ℤ) = ⌊number⌋ ∨
    (round_aspect number key : ℤ) = ⌈number⌉ := by
  have hf1 : 1 ≤ ⌊number⌋ := Int.le_floor.mpr (by exact_mod_cast h)
  have hc1 : 1 ≤ ⌈number⌉ := le_trans hf1 (Int.floor_le_ceil number)
  have hfn : (pyInt number : ℤ) = ⌊number⌋ := by
    unfold pyInt
    omega
  have hcn : (((⌈number⌉).toNat : ℕ) : ℤ) = ⌈number⌉ := by omega
  have hfn1 : 1 ≤ pyInt number := by omega
  have hcn1 : 1 ≤ (⌈number⌉).toNat := by omega
  unfold round_aspect
  split
  · rw [Nat.max_eq_left hfn1]
    exact Or.inl hfn
  · rw [Nat.max_eq_left hcn1]
    exact Or.inr hcn

/-- The floor and the ceiling are both within one of the value. -/
lemma floor_or_ceil_near {q : ℚ} {n : ℤ} (h : n = ⌊q⌋ ∨ n = ⌈q⌉) :
    |(n : ℚ) - q| < 1 := by
  rcases h with rfl | rfl
  · rw [abs_sub_comm, abs_of_nonneg (sub_nonneg.mpr (Int.floor_le q))]
    have h2 := Int.sub_one_lt_floor q
    linarith
  · rw [abs_of_nonneg (sub_nonneg.mpr (Int.le_ceil q))]
    have h2 := Int.ceil_lt_add_one q
    linarith

/-- `round_aspect` lands within one of its exact input. -/
lemma round_aspect_near {number : ℚ} {key : ℕ → ℚ} (h : (1 : ℚ) ≤ number) :
    |((round_aspect number key : ℕ) : ℚ) - number| < 1 := by
  have hmem := @round_aspect_cases number key h
  have h2 := floor_or_ceil_near (q := number) (n := (round_aspect number key : ℤ)) hmem
  rw [show (((round_aspect number key : ℤ) : ℚ)) = ((round_aspect number key : ℕ) : ℚ)
    by push_cast; ring] at h2
  exact h2

/-- PIL `thumbnail` box semantics: on a `sw × sh` image with box `(bw, bh)`,
the resulting dimensions fit the box, and the aspect ratio is preserved up to
one pixel of rounding (the cross products differ by less than
`max sw sh`).  The last two hypotheses keep the aspect ratio moderate enough
that the `max(..., 1)` clamp in `round_aspect` stays inactive. -/
lemma thumbnail_size_spec (sw sh bw bh : ℕ) (hsw : 1 ≤ sw) (hsh : 1 ≤ sh)
    (hbw : 1 ≤ bw) (hbh : 1 ≤ bh) (h1 : sh ≤ bh * sw) (h2 : sw ≤ bw * sh) :
    (thumbnail_size sw sh bw bh).1 ≤ bw ∧ (thumbnail_size sw sh bw bh).2 ≤ bh ∧
    (((thumbnail_size sw sh bw bh).1 : ℤ) * sh -
      ((thumbnail_size sw sh bw bh).2 : ℤ) * sw).natAbs < max sw sh := by
  have hswQ : (0 : ℚ) < sw := by exact_mod_cast hsw
  have hshQ : (0 : ℚ) < sh := by exact_mod_cast hsh
  have hbwQ : (0 : ℚ) < bw := by exact_mod_cast hbw
  have hbhQ : (0 : ℚ) < bh := by exact_mod_cast hbh
  have hmaxr : sh ≤ max sw sh := le_max_right sw sh
  have hmaxl : sw ≤ max sw sh := le_max_left sw sh
  unfold thumbnail_size
  split
  case isTrue hfit =>
    refine ⟨hfit.1, hfit.2, ?_⟩
    show (((sw : ℕ) : ℤ) * sh - ((sh : ℕ) : ℤ) * sw).natAbs < max sw sh
    have hz : ((sw : ℤ) * sh - (sh : ℤ) * sw) = 0 := by ring
    rw [hz]
    simp only [Int.natAbs_zero]
    omega
  case isFalse hfit =>
    split
    case isTrue hbr =>
      have hA1 : (1 : ℚ) ≤ (bh : ℚ) * ((sw : ℚ) / (sh : ℚ)) := by
        rw [mul_div_assoc']
        rw [le_div_iff₀ hshQ]
        have hc : (sh : ℚ) ≤ (bh : ℚ) * sw := by exact_mod_cast h1
        linarith
      have hAbw : (bh : ℚ) * ((sw : ℚ) / (sh : ℚ)) ≤ (bw : ℕ) := by
        have hd : (bh : ℚ) * ((bw : ℚ) / (bh : ℚ)) = bw := by field_simp
        calc (bh : ℚ) * ((sw : ℚ) / (sh : ℚ)) ≤ (bh : ℚ) * ((bw : ℚ) / (bh : ℚ)) :=
              mul_le_mul_of_nonneg_left hbr (le_of_lt hbhQ)
          _ = bw := hd
      refine ⟨?_, le_refl bh, ?_⟩
      · show round_aspect ((bh : ℚ) * ((sw : ℚ) / (sh : ℚ)))
          (fun n => |(sw : ℚ) / (sh : ℚ) - (n : ℚ) / (bh : ℚ)|) ≤ bw
        exact round_aspect_le hAbw hbw
      · show ((round_aspect ((bh : ℚ) * ((sw : ℚ) / (sh : ℚ)))
            (fun n => |(sw : ℚ) / (sh : ℚ) - (n : ℚ) / (bh : ℚ)|) : ℤ) * sh -
            ((bh : ℕ) : ℤ) * sw).natAbs < max sw sh
        have hnear := @round_aspect_near ((bh : ℚ) * ((sw : ℚ) / (sh : ℚ)))
          (fun n => |(sw : ℚ) / (sh : ℚ) - (n : ℚ) / (bh : ℚ)|) hA1
        generalize hg : round_aspect ((bh : ℚ) * ((sw : ℚ) / (sh : ℚ)))
          (fun n => |(sw : ℚ) / (sh : ℚ) - (n : ℚ) / (bh : ℚ)|) = t1 at hnear ⊢
        have hkey : |(t1 : ℚ) * sh - (bh : ℚ) * sw| < (sh : ℚ) := by
          have h3 : ((t1 : ℚ) - (bh : ℚ) * ((sw : ℚ) / (sh : ℚ))) * sh =
              (t1 : ℚ) * sh - (bh : ℚ) * sw := by
            field_simp
          calc |(t1 : ℚ) * sh - (bh : ℚ) * sw|
              = |(t1 : ℚ) - (bh : ℚ) * ((sw : ℚ) / (sh : ℚ))| * sh := by
                rw [← h3, abs_mul, abs_of_pos hshQ]
            _ < 1 * sh := mul_lt_mul_of_pos_right hnear hshQ
            _ = sh := one_mul _
        have hZ : |((t1 : ℤ) * sh - (bh : ℤ) * sw)| < (sh : ℤ) := by
          have hcast : ((((t1 : ℤ) * sh - (bh : ℤ) * sw : ℤ)) : ℚ) =
              (t1 : ℚ) * sh - (bh : ℚ) * sw := by push_cast; ring
          rw [← hcast, ← Int.cast_abs] at hkey
          exact_mod_cast hkey
        rw [Int.abs_eq_natAbs] at hZ
        omega
    case isFalse hbr =>
      push_neg at hbr
      have hq1 : (1 : ℚ) ≤ (bw : ℚ) / ((sw : ℚ) / (sh : ℚ)) := by
        rw [div_div_eq_mul_div, le_div_iff₀ hswQ]
        have hc : (sw : ℚ) ≤ (bw : ℚ) * sh := by exact_mod_cast h2
        linarith
      have hqbh : (bw : ℚ) / ((sw : ℚ) / (sh : ℚ)) ≤ (bh : ℕ) := by
        rw [div_div_eq_mul_div, div_le_iff₀ hswQ]
        have hlt : (bw : ℚ) * sh < (sw : ℚ) * bh := by
          rw [div_lt_div_iff₀ hbhQ hshQ] at hbr
          linarith
        linarith
      refine ⟨le_refl bw, ?_, ?_⟩
      · show round_aspect ((bw : ℚ) / ((sw : ℚ) / (sh : ℚ)))
          (fun n => if n = 0 then 0 else |(sw : ℚ) / (sh : ℚ) - (bw : ℚ) / (n : ℚ)|) ≤ bh
        exact round_aspect_le hqbh hbh
      · show (((bw : ℕ) : ℤ) * sh - (round_aspect ((bw : ℚ) / ((sw : ℚ) / (sh : ℚ)))
            (fun n => if n = 0 then 0 else |(sw : ℚ) / (sh : ℚ) - (bw : ℚ) / (n : ℚ)|) : ℤ) *
            sw).natAbs < max sw sh
        have hnear := @round_aspect_near ((bw : ℚ) / ((sw : ℚ) / (sh : ℚ)))
          (fun n => if n = 0 then 0 else |(sw : ℚ) / (sh : ℚ) - (bw : ℚ) / (n : ℚ)|) hq1
        generalize hg : round_aspect ((bw : ℚ) / ((sw : ℚ) / (sh : ℚ)))
          (fun n => if n = 0 then 0 else |(sw : ℚ) / (sh : ℚ) - (bw : ℚ) / (n : ℚ)|) = t2
          at hnear ⊢
        have hkey : |(t2 : ℚ) * sw - (bw : ℚ) * sh| < (sw : ℚ) := by
          have h3 : ((t2 : ℚ) - (bw : ℚ) / ((sw : ℚ) / (sh : ℚ))) * sw =
              ((t2 : ℚ) * sw - (bw : ℚ) * sh) * (sw / sh) / (sw / sh) := by
            field_simp
          have h3' : ((t2 : ℚ) - (bw : ℚ) / ((sw : ℚ) / (sh : ℚ))) * sw =
              (t2 : ℚ) * sw - (bw : ℚ) * sh := by
            rw [h3, mul_div_cancel_right₀]
            positivity
          calc |(t2 : ℚ) * sw - (bw : ℚ) * sh|
              = |(t2 : ℚ) - (bw : ℚ) / ((sw : ℚ) / (sh : ℚ))| * sw := by
                rw [← h3', abs_mul, abs_of_pos hswQ]
            _ < 1 * sw := mul_lt_mul_of_pos_right hnear hswQ
            _ = sw := one_mul _
        have hZ : |((bw : ℤ) * sh - (t2 : ℤ) * sw)| < (sw : ℤ) := by
          have hcast : ((((bw : ℤ) * sh - (t2 : ℤ) * sw : ℤ)) : ℚ) =
              (bw : ℚ) * sh - (t2 : ℚ) * sw := by push_cast; ring
          rw [abs_sub_comm] at hkey
          rw [← hcast, ← Int.cast_abs] at hkey
          exact_mod_cast hkey
        rw [Int.abs_eq_natAbs] at hZ
        omega

/-- Pasting a fully transparent pixel leaves the opaque black background. -/
lemma blend_pixel_zero_alpha (p : RGBA) (h : p.a = 0) :
    blend_pixel { r := 0, g := 0, b := 0, a := 255 } p =
      { r := 0, g := 0, b := 0, a := 255 } := by
  unfold blend_pixel blend_channel
  rw [h]
  simp

/-- C7: for each of the three launch-screen canvases, the thumbnailed source
copy has each side at most half the corresponding canvas dimension, its
aspect ratio matches the source's up to one pixel of rounding, it is pasted
with its bounding-box centre within one pixel of the canvas centre, the
canvas has the full screen dimensions, every pixel outside the pasted box is
opaque black, and every pasted pixel whose resampled source alpha is 0 shows
the opaque black background through.  The two aspect-bound hypotheses only
exclude degenerate sources wider or taller than 1366:1, for which PIL's
`round_aspect` clamp would distort the aspect ratio. -/
theorem launch_screens_centered (screen : ℕ × ℕ)
    (hscreen : screen ∈ screen_sizes) (lanczos : Resample) (source_image : Img)
    (hw : 1024 ≤ source_image.width) (hh : 1024 ≤ source_image.height)
    (haw : source_image.width ≤ 1366 * source_image.height)
    (hah : source_image.height ≤ 1366 * source_image.width)
    (t : ℕ × ℕ)
    (ht : t = thumbnail_size source_image.width source_image.height
      (screen.1 / 2) (screen.2 / 2))
    (px py : ℕ) (hpx : px = (screen.1 - t.1) / 2) (hpy : py = (screen.2 - t.2) / 2) :
    t.1 ≤ screen.1 / 2 ∧ t.2 ≤ screen.2 / 2 ∧
    ((t.1 : ℤ) * source_image.height - (t.2 : ℤ) * source_image.width).natAbs <
      max source_image.width source_image.height ∧
    ((2 * (px : ℤ) + t.1) - screen.1).natAbs ≤ 1 ∧
    ((2 * (py : ℤ) + t.2) - screen.2).natAbs ≤ 1 ∧
    (launch_screen_image lanczos source_image screen).width = screen.1 ∧
    (launch_screen_image lanczos source_image screen).height = screen.2 ∧
    (∀ x y, ¬(px ≤ x ∧ x < px + t.1 ∧ py ≤ y ∧ y < py + t.2) →
      (launch_screen_image lanczos source_image screen).pix x y =
        { r := 0, g := 0, b := 0, a := 255 }) ∧
    (∀ x y, (px ≤ x ∧ x < px + t.1 ∧ py ≤ y ∧ y < py + t.2) →
      (lanczos source_image t.1 t.2 (x - px) (y - py)).a = 0 →
      (launch_screen_image lanczos source_image screen).pix x y =
        { r := 0, g := 0, b := 0, a := 255 }) := by
  have hsw1 : 1 ≤ source_image.width := le_trans (by norm_num) hw
  have hsh1 : 1 ≤ source_image.height := le_trans (by norm_num) hh
  have hmain : t.1 ≤ screen.1 / 2 ∧ t.2 ≤ screen.2 / 2 ∧
      ((t.1 : ℤ) * source_image.height - (t.2 : ℤ) * source_image.width).natAbs <
        max source_image.width source_image.height := by
    subst ht
    fin_cases hscreen
    · exact thumbnail_size_spec _ _ 1366 1366 hsw1 hsh1 (by norm_num) (by norm_num) hah haw
    · exact thumbnail_size_spec _ _ 2732 2732 hsw1 hsh1 (by norm_num) (by norm_num)
        (le_trans hah (Nat.mul_le_mul_right _ (by norm_num)))
        (le_trans haw (Nat.mul_le_mul_right _ (by norm_num)))
    · exact thumbnail_size_spec _ _ 4098 4098 hsw1 hsh1 (by norm_num) (by norm_num)
        (le_trans hah (Nat.mul_le_mul_right _ (by norm_num)))
        (le_trans haw (Nat.mul_le_mul_right _ (by norm_num)))
  obtain ⟨hf1, hf2, hf3⟩ := hmain
  have ht1s : t.1 ≤ screen.1 := le_trans hf1 (Nat.div_le_self _ _)
  have ht2s : t.2 ≤ screen.2 := le_trans hf2 (Nat.div_le_self _ _)
  refine ⟨hf1, hf2, hf3, ?_, ?_, rfl, rfl, ?_, ?_⟩
  · subst hpx
    omega
  · subst hpy
    omega
  · intro x y hxy
    subst ht
    subst hpx
    subst hpy
    simp only [launch_screen_image, resizeImg]
    rw [if_neg hxy]
  · intro x y hxy ha
    subst ht
    subst hpx
    subst hpy
    simp only [launch_screen_image, resizeImg]
    rw [if_pos hxy]
    exact blend_pixel_zero_alpha _ ha

/-- Witness for C7: the 2732×2732 canvas with the concrete 1024×1024 test
source, whose thumbnail is unchanged (1024 ≤ 1366) and pasted at (854, 854). -/
theorem launch_screens_centered_witness :
    (1024 : ℕ) ≤ 2732 / 2 ∧ (1024 : ℕ) ≤ 2732 / 2 ∧
    (((1024 : ℕ) : ℤ) * test_source.height -
      ((1024 : ℕ) : ℤ) * test_source.width).natAbs <
      max test_source.width test_source.height ∧
    ((2 * ((854 : ℕ) : ℤ) + (1024 : ℕ)) - (2732 : ℕ)).natAbs ≤ 1 ∧
    ((2 * ((854 : ℕ) : ℤ) + (1024 : ℕ)) - (2732 : ℕ)).natAbs ≤ 1 ∧
    (launch_screen_image test_lanczos test_source (2732, 2732)).width = 2732 ∧
    (launch_screen_image test_lanczos test_source (2732, 2732)).height = 2732 ∧
    (∀ x y, ¬((854 : ℕ) ≤ x ∧ x < 854 + 1024 ∧ (854 : ℕ) ≤ y ∧ y < 854 + 1024) →
      (launch_screen_image test_lanczos test_source (2732, 2732)).pix x y =
        { r := 0, g := 0, b := 0, a := 255 }) ∧
    (∀ x y, ((854 : ℕ) ≤ x ∧ x < 854 + 1024 ∧ (854 : ℕ) ≤ y ∧ y < 854 + 1024) →
      (test_lanczos test_source 1024 1024 (x - 854) (y - 854)).a = 0 →
      (launch_screen_image test_lanczos test_source (2732, 2732)).pix x y =
        { r := 0, g := 0, b := 0, a := 255 }) :=
  launch_screens_centered (2732, 2732) (by decide) test_lanczos test_source
    (by decide) (by decide) (by decide) (by decide)
    (1024, 1024) (by with_unfolding_all rfl) 854 854 (by decide) (by decide)
